import Mathlib

/-
Verification of the mosca MQTT broker core (lib/server.js together with
lib/persistance/levelup.js) against its natural-language specification.

The broker state is embedded shallowly:

* every LevelUp sublevel (a key-value store with string keys) becomes an
  association list with first-match lookup and replace-or-append put;
* the wildcard topic matcher (component A of the spec, provided by the
  external qlobber dependency, whose code is not part of this repository)
  is modelled from the spec, section 4.1;
* the per-connection retransmission machinery of lib/server.js becomes an
  explicit state record driven by timer-fire / puback / cleanup steps.
-/

/-! ## Generic association-list store (model of a LevelUp sublevel) -/


/-- First-match lookup, the model of `sublevel.get`. -/
def aget [DecidableEq κ] : List (κ × α) → κ → Option α
  | [], _ => none
  | (k0, v0) :: rest, k => if k0 = k then some v0 else aget rest k

/-- Replace-or-append insert, the model of `sublevel.put`. -/
def aput [DecidableEq κ] : List (κ × α) → κ → α → List (κ × α)
  | [], k, v => [(k, v)]
  | (k0, v0) :: rest, k, v =>
    if k0 = k then (k, v) :: rest else (k0, v0) :: aput rest k v

/-- Key removal, the model of `sublevel.del`. -/
def adel [DecidableEq κ] : List (κ × α) → κ → List (κ × α)
  | [], _ => []
  | (k0, v0) :: rest, k =>
    if k0 = k then adel rest k else (k0, v0) :: adel rest k

/-! ## String prefix test (model of the level-range scan by key prefix) -/

/-- Boolean prefix test on character lists. -/
def chainPre : List Char → List Char → Bool
  | [], _ => true
  | _ :: _, [] => false
  | c :: cs, d :: ds => c == d && chainPre cs ds

/-- `strStartsWith s pre` holds when the string `s` begins with `pre`; this is
how `level-range` selects the keys of the `%s:` range for a client id. -/
def strStartsWith (s pre : String) : Bool := chainPre pre.data s.data

/-! ## Packets -/

/-- An MQTT packet as handled by the broker (spec section 3). -/
structure Packet where
  topic : String
  payload : String
  qos : Nat
  messageId : Option Nat
  retain : Bool
deriving DecidableEq

/-! ## Topic matcher (component A)

Modelled from the spec: the wildcard topic matcher is the qlobber
dependency, whose source is not part of this repository.  Spec section 4.1:
`add(filter, token)` registers an opaque token under a filter, `remove(token)`
removes a previously added token identified by value equality, and
`match(topic)` returns every token whose filter matches, where `+` matches any
single non-empty level and `#` matches the remaining levels including zero. -/

/-- Split a character list into `/`-separated levels. -/
def splitLevelsAux : List Char → List Char → List (List Char)
  | [], acc => [acc.reverse]
  | c :: rest, acc =>
    if c = '/' then acc.reverse :: splitLevelsAux rest []
    else splitLevelsAux rest (c :: acc)

/-- Wildcard matching of a filter (level list) against a topic (level list). -/
def matchLevels : List (List Char) → List (List Char) → Bool
  | [], [] => true
  | [], _ :: _ => false
  | f :: fs, ts =>
    if f == ['#'] && fs.isEmpty then true
    else
      match ts with
      | [] => false
      | t :: ts2 => (if f == ['+'] then !t.isEmpty else f == t) && matchLevels fs ts2

/-- Does the wildcard `filter` match the concrete `topic`? -/
def topicMatch (filter topic : String) : Bool :=
  matchLevels (splitLevelsAux filter.data []) (splitLevelsAux topic.data [])

/-- The in-memory matcher state: a list of `(filter, token)` registrations. -/
def lobberMatch (l : List (String × String)) (topic : String) : List String :=
  (l.filter (fun ft => topicMatch ft.1 topic)).map (fun ft => ft.2)

/-- Modelled from the spec (section 4.1): `remove(token)` removes a
registration identified by token value equality. -/
def lobberRemove (l : List (String × String)) (tok : String) :
    List (String × String) :=
  l.filter (fun ft => !(ft.2 == tok))

/-- Is a token currently registered in the matcher? -/
def lobberHasTok (l : List (String × String)) (tok : String) : Bool :=
  l.any (fun ft => ft.2 == tok)

/-! ## Persistence store (lib/persistance/levelup.js) -/

/-- The three ttl options resolved by the constructor (lines 38-45):
subscriptions and packets default to one hour, checkFrequency to one
minute (milliseconds). -/
structure TTLOpts where
  subscriptions : Nat
  packets : Nat
  checkFrequency : Nat
deriving DecidableEq

/-- Constructor defaulting of `options.ttl` (lines 38-45). -/
def mkTTLOpts (subscriptions packets checkFrequency : Option Nat) : TTLOpts :=
  { subscriptions := subscriptions.getD (60 * 60 * 1000)
    packets := packets.getD (60 * 60 * 1000)
    checkFrequency := checkFrequency.getD (60 * 1000) }

/-- A row of the `subscriptions` index sublevel (storeSubscriptions,
lines 107-111): `{client, topic, qos}` keyed by `topic ++ ":" ++ client`. -/
structure SubRow where
  client : String
  topic : String
  qos : Nat
deriving DecidableEq

/-- The `offlinePackets` sublevel: each entry keeps the stored packet and the
ttl value passed to `put`. -/
abbrev OffStore := List (String × (Packet × Nat))

/-- The state of a LevelUpPersistance instance: the four sublevels plus the
in-memory matcher `_subLobber`. -/
structure PState where
  retained : List (String × Packet)
  clientSubscriptions : List (String × List (String × Nat))
  subscriptions : List (String × SubRow)
  offlinePackets : OffStore
  subLobber : List (String × String)
deriving DecidableEq

/-- `storeRetained` (lines 69-71): unconditionally
`this._retained.put(packet.topic, packet, cb)`. -/
def storeRetained (st : PState) (p : Packet) : PState :=
  { st with retained := aput st.retained p.topic p }

/-- `lookupRetained` (lines 73-90): scan the `retained` sublevel and collect
the values whose key is matched by the pattern. -/
def lookupRetained (st : PState) (pattern : String) : List Packet :=
  (st.retained.filter (fun kv => topicMatch pattern kv.1)).map (fun kv => kv.2)

/-- `_storePacket` (lines 187-194): the key is
`client ++ ":" ++ new Date().toISOString()` and the ttl option passed to the
put is `this.options.ttl.subscriptions`. -/
def storePacket (opts : TTLOpts) (off : OffStore) (client : String)
    (p : Packet) (nowISO : String) : OffStore :=
  aput off (client ++ ":" ++ nowISO) (p, opts.subscriptions)

/-- Iterator body of `storeOfflinePacket` (lines 151-163): match the packet topic in the
matcher, and for every matched index key get the row and `_storePacket` a copy
under the row client; `async.each` runs every iteration and hands the first
error to `done`.  `times` supplies the `new Date().toISOString()` value
observed by each iteration; an absent index row is the NotFoundError of the
get. -/
def sopStep (opts : TTLOpts) (subsIdx : List (String × SubRow)) (p : Packet)
    (acc : OffStore × Option String) (kt : String × String) :
    OffStore × Option String :=
  match aget subsIdx kt.1 with
  | some sub => (storePacket opts acc.1 sub.client p kt.2, acc.2)
  | none => (acc.1, acc.2.orElse (fun _ => some kt.1))

/-- `storeOfflinePacket` as a whole: fold the iterator body over the matched
index keys paired with the timestamps they observe. -/
def storeOfflinePacket (opts : TTLOpts) (st : PState) (p : Packet)
    (times : List String) : OffStore × Option String :=
  ((lobberMatch st.subLobber p.topic).zip times).foldl
    (sopStep opts st.subscriptions p) (st.offlinePackets, none)

/-- `streamOfflinePackets` (lines 165-185): stream the `clientId ++ ":"` key
range, delete every streamed entry, and yield its value to the callback only
when the session is not clean.  Returns the remaining store and the yielded
packets. -/
def streamOfflinePackets (clean : Bool) (id : String) (off : OffStore) :
    OffStore × List Packet :=
  (off.filter (fun kv => !(strStartsWith kv.1 (id ++ ":"))),
   if clean then []
   else (off.filter (fun kv => strStartsWith kv.1 (id ++ ":"))).map
     (fun kv => kv.2.1))

/-- The forEach of `lookupSubscriptions` (lines 128-132): for every filter of
the stored record remove `filter ++ ":" ++ id` from the matcher and delete the
index row. -/
def delSubs (id : String) : List (String × Nat) → PState → PState
  | [], st => st
  | (f, _) :: rest, st =>
    delSubs id rest
      { st with
        subLobber := lobberRemove st.subLobber (f ++ ":" ++ id)
        subscriptions := adel st.subscriptions (f ++ ":" ++ id) }

/-- `lookupSubscriptions` (lines 122-149): when a record exists and the
session is clean, delete the record, drain the offline packets through a nop
callback, remove the filters from matcher and index and return the empty map;
otherwise return the stored record or the empty map. -/
def lookupSubscriptions (st : PState) (id : String) (clean : Bool) :
    PState × List (String × Nat) :=
  match aget st.clientSubscriptions id with
  | some subs =>
    if clean then
      let st1 := { st with clientSubscriptions := adel st.clientSubscriptions id }
      let st2 := { st1 with
        offlinePackets := (streamOfflinePackets clean id st1.offlinePackets).1 }
      (delSubs id subs st2, [])
    else (st, subs)
  | none => (st, [])

/-! ## Connection state machine (lib/server.js) -/

/-- The per-connection delivery state of `Server.prototype.serve`:
`inflight` maps a messageId to the retry argument captured by the pending
retransmit timer together with a flag telling whether that timer is still
pending (a fired or cleared timer never runs again, but `delete` is the only
thing that removes the map entry); `sent` records the retry index of every
`client.publish` call; `delays` records the delay of every scheduled
retransmit timer; `errored` records an emitted
"client not responding to acks" error; `streamOpen` is the client socket. -/
structure DState where
  inflight : List (Nat × (Nat × Bool))
  sent : List Nat
  delays : List Nat
  errored : Bool
  streamOpen : Bool
deriving DecidableEq

/-- The state of a freshly served connection (lines 623-626). -/
def dInit : DState :=
  { inflight := [], sent := [], delays := [], errored := false, streamOpen := true }

/-- `actualSend(packet, retry)` (lines 628-648).  At `retry === 10` it emits
an "error" on the client, which the handler at lines 854-857 receives
synchronously and answers with `this.stream.end()`.  Otherwise it transmits
and, for qos 1, schedules a retransmit after `baseRetryTimeout * 2 ^ retry`
milliseconds, recording the timer under `inflight[messageId]`. -/
def actualSend (base qos mid retry : Nat) (s : DState) : DState :=
  if retry = 10 then { s with errored := true, streamOpen := false }
  else
    let s1 := { s with sent := s.sent ++ [retry] }
    if qos = 1 then
      { s1 with
        inflight := aput s1.inflight mid (retry + 1, true)
        delays := s1.delays ++ [base * 2 ^ retry] }
    else s1

/-- A pending retransmit timer fires: the timer becomes spent and its callback
runs `retry++; actualSend(packet, retry)` (lines 641-646). -/
def timerFire (base qos mid : Nat) (s : DState) : DState :=
  match aget s.inflight mid with
  | some (r, true) =>
    actualSend base qos mid r { s with inflight := aput s.inflight mid (r, false) }
  | _ => s

/-- The "puback" handler (lines 729-737): when `inflight[messageId]` exists,
clear its timer and delete the entry; otherwise only warn. -/
def puback (mid : Nat) (s : DState) : DState :=
  match aget s.inflight mid with
  | some _ => { s with inflight := adel s.inflight mid }
  | none => s

/-- The cleanup of `closeConn` (lines 897-909): every entry of `inflight` is
cleared and deleted. -/
def connCleanup (s : DState) : DState := { s with inflight := [] }

/-- `n` successive fires of the pending retransmit timer of `mid`. -/
def fireN (base qos mid : Nat) : Nat → DState → DState
  | 0, s => s
  | n + 1, s => timerFire base qos mid (fireN base qos mid n s)

/-! ## forward and messageId allocation -/

/-- A session as seen by `forward`: the `nextId` counter (line 625) and the
subscription map `topic -> qos`. -/
structure FSession where
  nextId : Nat
  subscriptions : List (String × Nat)
deriving DecidableEq

/-- Line 625: `client.nextId = Math.floor(65535 * Math.random())`; the sample
is a natural number below 65535. -/
def initNextId (sample : Nat) : Nat := sample % 65535

/-- `forward` (lines 650-667): compute the delivery qos, build the outgoing
packet with `messageId: client.nextId++`, and hand it to `actualSend`.  The
counter is a plain increment; no wrap is applied anywhere. -/
def forward (s : FSession) (topic payload : String) (pubQos : Option Nat)
    (subTopic : String) (initialQos : Nat) : FSession × Packet :=
  let subQos := aget s.subscriptions subTopic
  let qos := min (pubQos.getD 0) (subQos.getD initialQos)
  ({ s with nextId := s.nextId + 1 },
   { topic := topic, payload := payload, qos := qos,
     messageId := some s.nextId, retain := false })

/-- `n` deliveries through `forward` with fixed arguments. -/
def forwardN (topic payload : String) (pubQos : Option Nat) (subTopic : String)
    (initialQos : Nat) : Nat → FSession → FSession
  | 0, s => s
  | n + 1, s =>
    (forward (forwardN topic payload pubQos subTopic initialQos n s)
      topic payload pubQos subTopic initialQos).1

/-! ## Supervisor registry on CONNECT -/

/-- The supervisor registry: `clients` maps a client id to a session number,
and `sessions` records which session streams are open. -/
structure ServerState where
  clients : List (String × Nat)
  sessions : List (Nat × Bool)
deriving DecidableEq

/-- The "connect" handler after a successful authentication (lines 692-727):
it saves keepalive and will and then runs `that.clients[client.id] = client`.
It performs no lookup of an existing registry entry and closes no prior
session. -/
def connectRegister (r : ServerState) (id : String) (snum : Nat) : ServerState :=
  { r with clients := aput r.clients id snum }

/-! ## SUBSCRIBE handling -/

/-- The per-connection subscribe state: the session map `topic -> qos`, the
bus registrations made through `ascoltatore.subscribe` as
`(translated filter, handler identity)` pairs, and a counter giving each
handler closure a fresh identity. -/
structure SubState where
  subscriptions : List (String × Nat)
  busRegs : List (String × Nat)
  nextHandler : Nat
deriving DecidableEq

/-- QoS downgrade of the subscribe handler (lines 748-750). -/
def downgrade (q : Nat) : Nat := if q = 2 then 1 else q

/-- JavaScript `s.topic.replace("#", "*")` (line 780): replace the first
occurrence of `#` by `*`. -/
def replaceFirstAux : List Char → List Char
  | [] => []
  | c :: rest => if c = '#' then '*' :: rest else c :: replaceFirstAux rest

/-- The MQTT-to-bus wildcard translation applied on subscribe. -/
def replaceFirstHash (s : String) : String := { data := replaceFirstAux s.data }

/-- First pass of the "subscribe" handler (lines 747-755): map over the
requested subscriptions, downgrade qos 2 to 1, update the stored qos in place
for filters the client already has, and collect the granted list. -/
def grantedPass : List (String × Nat) → List (String × Nat) →
    List (String × Nat) × List Nat
  | m, [] => (m, [])
  | m, (t, q) :: rest =>
    let q1 := downgrade q
    let m1 := if (aget m t).isSome then aput m t q1 else m
    let r := grantedPass m1 rest
    (r.1, q1 :: r.2)

/-- Second pass (lines 757-792) over the filters the client does not yet
have, with the default allow-all `authorizeSubscribe`: register one bus
handler per filter and store `{qos, handler}` in the session map. -/
def regPass : SubState → List (String × Nat) → SubState
  | st, [] => st
  | st, (t, q) :: rest =>
    regPass
      { subscriptions := aput st.subscriptions t q
        busRegs := st.busRegs ++ [(replaceFirstHash t, st.nextHandler)]
        nextHandler := st.nextHandler + 1 } rest

/-- The complete "subscribe" handler (lines 745-803): granted pass, then the
filter keeping only requests whose topic is absent from the session map, then
the registration pass; returns the new state and the granted list. -/
def handleSubscribe (st : SubState) (reqs : List (String × Nat)) :
    SubState × List Nat :=
  let gp := grantedPass st.subscriptions reqs
  let newOnes := (reqs.map (fun tq => (tq.1, downgrade tq.2))).filter
    (fun tq => (aget gp.1 tq.1).isNone)
  (regPass { st with subscriptions := gp.1 } newOnes, gp.2)

/-- How many bus registrations this client holds for `t` (after the wildcard
translation applied on subscribe). -/
def busCount (st : SubState) (t : String) : Nat :=
  (st.busRegs.filter (fun r => r.1 == replaceFirstHash t)).length

/-- `n` repetitions of an identical single-filter SUBSCRIBE. -/
def repSub (t : String) (q : Nat) : Nat → SubState → SubState
  | 0, st => st
  | n + 1, st => (handleSubscribe (repSub t q n st) [(t, q)]).1

/-- Occurrence count of a value in a list. -/
def countOcc [DecidableEq β] (p : β) : List β → Nat
  | [] => 0
  | b :: rest => (if b = p then 1 else 0) + countOcc p rest

/-! ## Concrete instances used by witnesses and counterexamples -/

/-- A persistence state with every sublevel empty. -/
def emptyPState : PState :=
  { retained := [], clientSubscriptions := [], subscriptions := [],
    offlinePackets := [], subLobber := [] }

/-- A retained publish with empty payload. -/
def emptyRetainedPub : Packet :=
  { topic := "t", payload := "", qos := 0, messageId := none, retain := true }

/-- A delivery state with one pending inflight entry. -/
def onePendingD : DState :=
  { inflight := [(7, (1, true))], sent := [0], delays := [2],
    errored := false, streamOpen := true }

/-- The supervisor registry before a second CONNECT with client id "a":
session 1 is registered for "a" and both session streams are open. -/
def c3Registry : ServerState :=
  { clients := [("a", 1)], sessions := [(1, true), (2, true)] }

/-- A stored offline packet for the witness states. -/
def c4Packet : Packet :=
  { topic := "f", payload := "x", qos := 1, messageId := none, retain := false }

/-- A persistence state holding one durable record, one index row, one
matcher registration and one offline packet for client "a". -/
def c4State : PState :=
  { retained := []
    clientSubscriptions := [("a", [("f", 1)])]
    subscriptions := [("f:a", { client := "a", topic := "f", qos := 1 })]
    offlinePackets := [("a:2026-01-01T00:00:00.000Z", (c4Packet, 5))]
    subLobber := [("f", "f:a")] }

/-- The offline packet stored in the C6 scenario. -/
def c6Packet : Packet :=
  { topic := "f", payload := "x", qos := 1, messageId := none, retain := false }

/-- A session whose `nextId` starts at the largest possible initial sample. -/
def c7Session : FSession := { nextId := initNextId 65534, subscriptions := [] }

/-- The state for the C8 counterexample: the matcher holds two rows for the
filters `a/+` and `a/#`, but the index row of the first one is missing (for
instance ttl-expired), so its get fails with NotFoundError. -/
def c8State : PState :=
  { retained := []
    clientSubscriptions := []
    subscriptions := [("a/#:b", { client := "b", topic := "a/#", qos := 1 })]
    offlinePackets := []
    subLobber := [("a/+", "a/+:a"), ("a/#", "a/#:b")] }

/-- The packet published in the C8 and C10 scenarios. -/
def c8Packet : Packet :=
  { topic := "a/b", payload := "x", qos := 1, messageId := none, retain := false }

/-- A subscribe state already holding `a/#` at qos 1 with its bus handler. -/
def c9Held : SubState :=
  { subscriptions := [("a/#", 1)], busRegs := [("a/*", 0)], nextHandler := 1 }

/-- A fresh subscribe state. -/
def c9Fresh : SubState :=
  { subscriptions := [], busRegs := [], nextHandler := 0 }

/-- The persistence state for the C10 witness: client "c" holds two durable
subscriptions `a/+` and `a/#`, both present as index rows and matcher
registrations. -/
def c10State : PState :=
  { retained := []
    clientSubscriptions := []
    subscriptions :=
      [("a/+:c", { client := "c", topic := "a/+", qos := 1 }),
       ("a/#:c", { client := "c", topic := "a/#", qos := 1 })]
    offlinePackets := []
    subLobber := [("a/+", "a/+:c"), ("a/#", "a/#:c")] }

/-- The packet published in the C10 witness scenario. -/
def c10Packet : Packet :=
  { topic := "a/b", payload := "x", qos := 1, messageId := none, retain := false }


theorem aget_aput_self [DecidableEq κ] (l : List (κ × α)) (k : κ) (v : α) :
    aget (aput l k v) k = some v := by
  induction l with
  | nil => simp [aget, aput]
  | cons kv rest ih =>
    by_cases h : kv.1 = k
    · simp [aput, aget, h]
    · simp [aput, aget, h, ih]

theorem aget_aput_ne [DecidableEq κ] (l : List (κ × α)) (k k0 : κ) (v : α)
    (h : k0 ≠ k) : aget (aput l k v) k0 = aget l k0 := by
  have hne : k ≠ k0 := Ne.symm h
  induction l with
  | nil => simp [aget, aput, hne]
  | cons kv rest ih =>
    by_cases hk : kv.1 = k
    · simp [aput, aget, hk, hne]
    · by_cases hk0 : kv.1 = k0
      · simp [aput, aget, hk, hk0, h]
      · simp [aput, aget, hk, hk0, ih]

theorem aget_adel_self [DecidableEq κ] (l : List (κ × α)) (k : κ) :
    aget (adel l k) k = none := by
  induction l with
  | nil => simp [adel, aget]
  | cons kv rest ih =>
    by_cases h : kv.1 = k
    · simp [adel, h, ih]
    · simp [adel, aget, h, ih]

theorem aget_adel_ne [DecidableEq κ] (l : List (κ × α)) (k k0 : κ)
    (h : k0 ≠ k) : aget (adel l k) k0 = aget l k0 := by
  induction l with
  | nil => simp [adel]
  | cons kv rest ih =>
    have hne : k ≠ k0 := Ne.symm h
    by_cases hk : kv.1 = k
    · simp [adel, aget, hk, hne, ih]
    · by_cases hk0 : kv.1 = k0
      · simp [adel, aget, hk, hk0, h, ih]
      · simp [adel, aget, hk, hk0, ih]

theorem aget_adel_none [DecidableEq κ] (l : List (κ × α)) (k k0 : κ)
    (h : aget l k0 = none) : aget (adel l k) k0 = none := by
  by_cases hk : k0 = k
  · subst hk; exact aget_adel_self l k0
  · rw [aget_adel_ne l k k0 hk]; exact h

theorem aget_mem [DecidableEq κ] (l : List (κ × α)) (k : κ) (v : α)
    (h : aget l k = some v) : (k, v) ∈ l := by
  induction l with
  | nil => simp [aget] at h
  | cons kv rest ih =>
    obtain ⟨k1, v1⟩ := kv
    by_cases hk : k1 = k
    · subst hk
      simp [aget] at h
      subst h
      exact List.mem_cons_self _ _
    · simp [aget, hk] at h
      exact List.mem_cons_of_mem _ (ih h)

theorem mem_aput_self [DecidableEq κ] (l : List (κ × α)) (k : κ) (v : α) :
    (k, v) ∈ aput l k v := by
  induction l with
  | nil => simp [aput]
  | cons kv rest ih =>
    obtain ⟨k1, v1⟩ := kv
    by_cases h : k1 = k
    · simp [aput, h]
    · simp only [aput, h, if_neg, if_false]
      exact List.mem_cons_of_mem _ ih

theorem aput_aput_same [DecidableEq κ] (l : List (κ × α)) (k : κ) (v w : α) :
    aput (aput l k v) k w = aput l k w := by
  induction l with
  | nil => simp [aput]
  | cons kv rest ih =>
    by_cases h : kv.1 = k
    · simp [aput, h]
    · simp [aput, h, ih]

theorem chainPre_append (a b : List Char) : chainPre a (a ++ b) = true := by
  induction a with
  | nil => rfl
  | cons c cs ih => simp [chainPre, ih]

theorem strStartsWith_append (a b : String) :
    strStartsWith (a ++ b) a = true := by
  have h : (a ++ b).data = a.data ++ b.data := rfl
  rw [strStartsWith, h]
  exact chainPre_append a.data b.data

theorem lobberHasTok_remove_self (l : List (String × String)) (tok : String) :
    lobberHasTok (lobberRemove l tok) tok = false := by
  induction l with
  | nil => rfl
  | cons ft rest ih =>
    by_cases h : ft.2 = tok
    · simp [lobberRemove, lobberHasTok, h] at ih ⊢
    · simp [lobberRemove, lobberHasTok, h] at ih ⊢

theorem lobberHasTok_remove_none (l : List (String × String)) (tok t0 : String)
    (h : lobberHasTok l t0 = false) :
    lobberHasTok (lobberRemove l tok) t0 = false := by
  induction l with
  | nil => rfl
  | cons ft rest ih =>
    simp [lobberHasTok] at h
    by_cases hm : ft.2 = tok
    · simp [lobberRemove, lobberHasTok, hm] at ih ⊢
      exact ih h.2
    · simp [lobberRemove, lobberHasTok, hm, h.1] at ih ⊢
      exact ih h.2

/-! ## Helper lemmas about the retransmission trace -/

theorem fireN_inv (base : Nat) : ∀ k, k ≤ 9 →
    fireN base 1 7 k (actualSend base 1 7 0 dInit) =
      { inflight := [(7, (k + 1, true))], sent := List.range (k + 1),
        delays := (List.range (k + 1)).map (fun i => base * 2 ^ i),
        errored := false, streamOpen := true } := by
  intro k
  induction k with
  | zero => intro _; rfl
  | succ k ih =>
    intro hk
    have hk9 : k ≤ 9 := by omega
    have h10 : ¬(k + 1 = 10) := by omega
    simp only [fireN, ih hk9]
    simp [timerFire, aget, aput, actualSend, h10, List.range_succ]

/-- After the tenth fire the delivery gives up: the error has been emitted,
the stream has been ended by the error handler, and the spent entry is still
sitting in `inflight`. -/
theorem exhaust_eq (base : Nat) :
    fireN base 1 7 10 (actualSend base 1 7 0 dInit) =
      { inflight := [(7, (10, false))], sent := List.range 10,
        delays := (List.range 10).map (fun i => base * 2 ^ i),
        errored := true, streamOpen := false } := by
  have h9 := fireN_inv base 9 (by omega)
  show timerFire base 1 7 (fireN base 1 7 9 (actualSend base 1 7 0 dInit)) = _
  rw [h9]
  simp [timerFire, aget, aput, actualSend]

/-! ## Helper lemmas about the persistence operations -/

theorem aget_filter_none [DecidableEq κ] (l : List (κ × α)) (p : κ → Bool)
    (k : κ) (h : p k = true) :
    aget (l.filter (fun kv => !(p kv.1))) k = none := by
  induction l with
  | nil => rfl
  | cons kv rest ih =>
    by_cases hp : p kv.1 = true
    · simp [hp]
      exact ih
    · simp only [Bool.not_eq_true] at hp
      by_cases hk : kv.1 = k
      · rw [hk] at hp; rw [hp] at h; cases h
      · simp [hp, aget, hk]
        exact ih

theorem delSubs_clientSubscriptions (id : String) (l : List (String × Nat))
    (st : PState) :
    (delSubs id l st).clientSubscriptions = st.clientSubscriptions := by
  induction l generalizing st with
  | nil => rfl
  | cons fq rest ih =>
    obtain ⟨f, q⟩ := fq
    simp [delSubs, ih]

theorem delSubs_offlinePackets (id : String) (l : List (String × Nat))
    (st : PState) :
    (delSubs id l st).offlinePackets = st.offlinePackets := by
  induction l generalizing st with
  | nil => rfl
  | cons fq rest ih =>
    obtain ⟨f, q⟩ := fq
    simp [delSubs, ih]

theorem delSubs_none_pres (id : String) (l : List (String × Nat)) (st : PState)
    (K : String) (h : aget st.subscriptions K = none) :
    aget (delSubs id l st).subscriptions K = none := by
  induction l generalizing st with
  | nil => exact h
  | cons fq rest ih =>
    obtain ⟨f, q⟩ := fq
    exact ih _ (aget_adel_none _ _ _ h)

theorem delSubs_tok_pres (id : String) (l : List (String × Nat)) (st : PState)
    (K : String) (h : lobberHasTok st.subLobber K = false) :
    lobberHasTok (delSubs id l st).subLobber K = false := by
  induction l generalizing st with
  | nil => exact h
  | cons fq rest ih =>
    obtain ⟨f, q⟩ := fq
    exact ih _ (lobberHasTok_remove_none _ _ _ h)

theorem delSubs_mem (id : String) (l : List (String × Nat)) (st : PState)
    (f : String) (q : Nat) (h : (f, q) ∈ l) :
    aget (delSubs id l st).subscriptions (f ++ ":" ++ id) = none ∧
    lobberHasTok (delSubs id l st).subLobber (f ++ ":" ++ id) = false := by
  induction l generalizing st with
  | nil => cases h
  | cons fq rest ih =>
    obtain ⟨f0, q0⟩ := fq
    rcases List.mem_cons.mp h with he | hr
    · cases he
      simp only [delSubs]
      constructor
      · exact delSubs_none_pres _ _ _ _ (aget_adel_self _ _)
      · exact delSubs_tok_pres _ _ _ _ (lobberHasTok_remove_self _ _)
    · simp only [delSubs]
      exact ih _ hr

theorem sopStep_some (opts : TTLOpts) (subsIdx : List (String × SubRow))
    (p : Packet) (acc : OffStore × Option String) (kt : String × String)
    (sub : SubRow) (hrow : aget subsIdx kt.1 = some sub) :
    sopStep opts subsIdx p acc kt =
      (aput acc.1 (sub.client ++ ":" ++ kt.2) (p, opts.subscriptions), acc.2) := by
  simp [sopStep, hrow, storePacket]

theorem sopStep_none (opts : TTLOpts) (subsIdx : List (String × SubRow))
    (p : Packet) (acc : OffStore × Option String) (kt : String × String)
    (hrow : aget subsIdx kt.1 = none) :
    sopStep opts subsIdx p acc kt =
      (acc.1, acc.2.orElse (fun _ => some kt.1)) := by
  simp [sopStep, hrow]

theorem sop_foldl_some (opts : TTLOpts) (subsIdx : List (String × SubRow))
    (p : Packet) (l : List (String × String)) (acc : OffStore × Option String)
    (K : String) (h : aget acc.1 K = some (p, opts.subscriptions)) :
    aget (l.foldl (sopStep opts subsIdx p) acc).1 K =
      some (p, opts.subscriptions) := by
  induction l generalizing acc with
  | nil => exact h
  | cons kt rest ih =>
    rw [List.foldl_cons]
    apply ih
    cases hrow : aget subsIdx kt.1 with
    | some sub =>
      rw [sopStep_some opts subsIdx p acc kt sub hrow]
      by_cases hk : sub.client ++ ":" ++ kt.2 = K
      · rw [← hk]
        exact aget_aput_self _ _ _
      · show aget (aput acc.1 (sub.client ++ ":" ++ kt.2) (p, opts.subscriptions)) K = _
        rw [aget_aput_ne _ _ _ _ (fun hh => hk hh.symm)]
        exact h
    | none =>
      rw [sopStep_none opts subsIdx p acc kt hrow]
      exact h

theorem sop_foldl_stored (opts : TTLOpts) (subsIdx : List (String × SubRow))
    (p : Packet) (l : List (String × String)) (acc : OffStore × Option String)
    (k t : String) (sub : SubRow) (hmem : (k, t) ∈ l)
    (hrow : aget subsIdx k = some sub) :
    aget (l.foldl (sopStep opts subsIdx p) acc).1 (sub.client ++ ":" ++ t) =
      some (p, opts.subscriptions) := by
  induction l generalizing acc with
  | nil => cases hmem
  | cons kt rest ih =>
    rw [List.foldl_cons]
    rcases List.mem_cons.mp hmem with he | hr
    · cases he
      apply sop_foldl_some
      rw [sopStep_some opts subsIdx p acc (k, t) sub hrow]
      exact aget_aput_self _ _ _
    · exact ih _ hr

theorem sop_foldl_err_pres (opts : TTLOpts) (subsIdx : List (String × SubRow))
    (p : Packet) (l : List (String × String)) (acc : OffStore × Option String)
    (h : acc.2.isSome = true) :
    (l.foldl (sopStep opts subsIdx p) acc).2.isSome = true := by
  induction l generalizing acc with
  | nil => exact h
  | cons kt rest ih =>
    rw [List.foldl_cons]
    apply ih
    cases hrow : aget subsIdx kt.1 with
    | some sub =>
      rw [sopStep_some opts subsIdx p acc kt sub hrow]
      exact h
    | none =>
      rw [sopStep_none opts subsIdx p acc kt hrow]
      cases hacc : acc.2 with
      | some e => simp [hacc, Option.orElse]
      | none => rw [hacc] at h; cases h

theorem sop_foldl_err (opts : TTLOpts) (subsIdx : List (String × SubRow))
    (p : Packet) (l : List (String × String)) (acc : OffStore × Option String)
    (k t : String) (hmem : (k, t) ∈ l) (hrow : aget subsIdx k = none) :
    (l.foldl (sopStep opts subsIdx p) acc).2.isSome = true := by
  induction l generalizing acc with
  | nil => cases hmem
  | cons kt rest ih =>
    rw [List.foldl_cons]
    rcases List.mem_cons.mp hmem with he | hr
    · cases he
      apply sop_foldl_err_pres
      rw [sopStep_none opts subsIdx p acc (k, t) hrow]
      cases hacc : acc.2 with
      | some e => simp [hacc, Option.orElse]
      | none => simp [hacc, Option.orElse]
    · exact ih _ hr

theorem one_le_countOcc_map [DecidableEq β] (l : List α) (f : α → β) (p : β)
    (x : α) (hx : x ∈ l) (e : f x = p) : 1 ≤ countOcc p (l.map f) := by
  induction l with
  | nil => cases hx
  | cons a rest ih =>
    rcases List.mem_cons.mp hx with he | hr
    · subst he
      simp [countOcc, e]
    · have := ih hr
      simp only [List.map_cons, countOcc]
      omega

theorem two_le_countOcc_map [DecidableEq β] (l : List α) (f : α → β) (p : β)
    (x1 x2 : α) (h1 : x1 ∈ l) (h2 : x2 ∈ l) (hne : x1 ≠ x2)
    (e1 : f x1 = p) (e2 : f x2 = p) : 2 ≤ countOcc p (l.map f) := by
  induction l with
  | nil => cases h1
  | cons a rest ih =>
    rcases List.mem_cons.mp h1 with he1 | hr1
    · subst he1
      rcases List.mem_cons.mp h2 with he2 | hr2
      · exact absurd he2.symm hne
      · have := one_le_countOcc_map rest f p x2 hr2 e2
        simp only [List.map_cons, countOcc, e1, if_pos]
        omega
    · rcases List.mem_cons.mp h2 with he2 | hr2
      · subst he2
        have := one_le_countOcc_map rest f p x1 hr1 e1
        simp only [List.map_cons, countOcc, e2, if_pos]
        omega
      · have := ih hr1 hr2
        simp only [List.map_cons, countOcc]
        omega

theorem strKey_ne (c t1 t2 : String) (h : t1 ≠ t2) :
    c ++ ":" ++ t1 ≠ c ++ ":" ++ t2 := by
  intro he
  apply h
  have hd : (c ++ ":").data ++ t1.data = (c ++ ":").data ++ t2.data :=
    congrArg String.data he
  exact String.ext (List.append_cancel_left hd)

/-! ## Claims -/

/-- C1, counterexample: `storeRetained` of a packet with empty payload does
not delete the retained entry; the packet is stored like any other, and a
later `lookupRetained` on the exact topic still returns it. -/
theorem c1_counterexample :
    aget (storeRetained emptyPState emptyRetainedPub).retained "t" =
      some emptyRetainedPub ∧
    lookupRetained (storeRetained emptyPState emptyRetainedPub) "t" =
      [emptyRetainedPub] := by decide

/-- C1 (amended): `storeRetained(P)` always sets `retained[P.topic] = P`,
also when `P.payload` is empty; no deletion happens, so a subsequent
`lookupRetained` on a filter matching `P.topic` returns the stored packet. -/
theorem c1_storeRetained_always_stores (st : PState) (p : Packet)
    (pat : String) :
    aget (storeRetained st p).retained p.topic = some p ∧
    (topicMatch pat p.topic = true →
      p ∈ lookupRetained (storeRetained st p) pat) := by
  constructor
  · exact aget_aput_self _ _ _
  · intro hm
    have hmem : (p.topic, p) ∈ aput st.retained p.topic p := mem_aput_self _ _ _
    have hf : (p.topic, p) ∈
        (aput st.retained p.topic p).filter (fun kv => topicMatch pat kv.1) :=
      List.mem_filter.mpr ⟨hmem, hm⟩
    exact List.mem_map_of_mem _ hf

/-- C1 witness: the amended theorem applied at a concrete state. -/
theorem c1_witness :
    emptyRetainedPub ∈
      lookupRetained (storeRetained emptyPState emptyRetainedPub) "t" :=
  (c1_storeRetained_always_stores emptyPState emptyRetainedPub "t").2 (by decide)

/-- C2, counterexample: a QoS-1 send followed by ten timer fires and no
PUBACK reaches delivery exhaustion, yet the `inflight` entry of the message
is still present, so the entry is not cleared "after 10 retry attempts". -/
theorem c2_counterexample :
    (fireN 2 1 7 10 (actualSend 2 1 7 0 dInit)).errored = true ∧
    (aget (fireN 2 1 7 10 (actualSend 2 1 7 0 dInit)).inflight 7).isSome =
      true := by decide

/-- C2 (amended): the `inflight` entry of a QoS-1 packet is removed when its
PUBACK arrives (cancelling the timer) or when the connection cleanup of
`closeConn` clears the whole map; the retries are scheduled at delays
`base * 2 ^ 0 .. base * 2 ^ 9`, and after the tenth attempt delivery stops
with an error while the spent entry itself stays in `inflight`. -/
theorem c2_inflight_lifecycle (base mid : Nat) (s : DState) :
    ((aget s.inflight mid).isSome = true →
      aget (puback mid s).inflight mid = none) ∧
    (connCleanup s).inflight = [] ∧
    (fireN base 1 7 10 (actualSend base 1 7 0 dInit)).delays =
      (List.range 10).map (fun i => base * 2 ^ i) ∧
    (fireN base 1 7 10 (actualSend base 1 7 0 dInit)).errored = true ∧
    aget (fireN base 1 7 10 (actualSend base 1 7 0 dInit)).inflight 7 =
      some (10, false) := by
  refine ⟨?_, rfl, ?_, ?_, ?_⟩
  · intro h
    cases hv : aget s.inflight mid with
    | none => rw [hv] at h; cases h
    | some v =>
      simp only [puback, hv]
      exact aget_adel_self _ _
  · rw [exhaust_eq]
  · rw [exhaust_eq]
  · rw [exhaust_eq]
    simp [aget]

/-- C2 witness: the amended theorem applied at a concrete state with one
pending entry. -/
theorem c2_witness : aget (puback 7 onePendingD).inflight 7 = none :=
  (c2_inflight_lifecycle 2 7 onePendingD).1 (by decide)

/-- C3, counterexample: a CONNECT for "a" from session 2 overwrites the
registry entry while session 1 stays open; no prior session is closed before
the new registration. -/
theorem c3_counterexample :
    aget (connectRegister c3Registry "a" 2).clients "a" = some 2 ∧
    aget (connectRegister c3Registry "a" 2).sessions 1 = some true := by decide

/-- C3 (amended): the connect handler only overwrites the registry binding
`clients[id]`; it does not touch, and in particular does not close, any prior
session stream. -/
theorem c3_connect_overwrites (r : ServerState) (id : String) (snum : Nat) :
    aget (connectRegister r id snum).clients id = some snum ∧
    (connectRegister r id snum).sessions = r.sessions :=
  ⟨aget_aput_self _ _ _, rfl⟩

/-- C4: `lookupSubscriptions` on a clean session with a stored record deletes
the record, drains and deletes the offline packets of the client without
yielding them, removes the filters of the record from the matcher and the
subscription index, and returns the empty map; on a non-clean session it
returns the stored record, and without a record it returns the empty map. -/
theorem c4_lookupSubscriptions_clean (st : PState) (id : String) :
    (∀ subs, aget st.clientSubscriptions id = some subs →
      lookupSubscriptions st id false = (st, subs) ∧
      (lookupSubscriptions st id true).2 = [] ∧
      aget (lookupSubscriptions st id true).1.clientSubscriptions id = none ∧
      (∀ k, strStartsWith k (id ++ ":") = true →
        aget (lookupSubscriptions st id true).1.offlinePackets k = none) ∧
      (streamOfflinePackets true id st.offlinePackets).2 = [] ∧
      (∀ f q, (f, q) ∈ subs →
        aget (lookupSubscriptions st id true).1.subscriptions
          (f ++ ":" ++ id) = none ∧
        lobberHasTok (lookupSubscriptions st id true).1.subLobber
          (f ++ ":" ++ id) = false)) ∧
    (aget st.clientSubscriptions id = none →
      ∀ c, lookupSubscriptions st id c = (st, [])) := by
  constructor
  · intro subs h
    have hlkT : lookupSubscriptions st id true =
        (delSubs id subs
          { st with
            clientSubscriptions := adel st.clientSubscriptions id
            offlinePackets :=
              (streamOfflinePackets true id st.offlinePackets).1 }, []) := by
      simp [lookupSubscriptions, h]
    refine ⟨?_, ?_, ?_, ?_, rfl, ?_⟩
    · simp [lookupSubscriptions, h]
    · rw [hlkT]
    · rw [hlkT]
      show aget (delSubs id subs _).clientSubscriptions id = none
      rw [delSubs_clientSubscriptions]
      exact aget_adel_self _ _
    · intro k hk
      rw [hlkT]
      show aget (delSubs id subs _).offlinePackets k = none
      rw [delSubs_offlinePackets]
      exact aget_filter_none st.offlinePackets
        (fun key => strStartsWith key (id ++ ":")) k hk
    · intro f q hm
      rw [hlkT]
      exact delSubs_mem id subs _ f q hm
  · intro h c
    simp [lookupSubscriptions, h]

/-- C4 witness: the theorem applied at a concrete state. -/
theorem c4_witness :
    lookupSubscriptions c4State "a" false = (c4State, [("f", 1)]) ∧
    aget (lookupSubscriptions c4State "a" true).1.subscriptions
      ("f" ++ ":" ++ "a") = none := by
  have h := (c4_lookupSubscriptions_clean c4State "a").1 [("f", 1)] (by decide)
  exact ⟨h.1, (h.2.2.2.2.2 "f" 1 (by decide)).1⟩

/-- C5, counterexample: after ten retry attempts without a PUBACK the error is
emitted and the stream is no longer open: the error handler of the client ends
the stream, so the connection is closed as a consequence of the exhaustion. -/
theorem c5_counterexample :
    (fireN 2 1 7 10 (actualSend 2 1 7 0 dInit)).errored = true ∧
    (fireN 2 1 7 10 (actualSend 2 1 7 0 dInit)).streamOpen = false := by decide

/-- C5 (amended): when a QoS-1 packet has been retried 10 times without a
PUBACK the broker emits a client-level error and stops retrying (a further
timer fire changes nothing and exactly ten transmissions happened), and the
client error handler ends the stream, closing the connection. -/
theorem c5_exhaustion_ends_stream (base : Nat) :
    (fireN base 1 7 10 (actualSend base 1 7 0 dInit)).errored = true ∧
    (fireN base 1 7 10 (actualSend base 1 7 0 dInit)).streamOpen = false ∧
    timerFire base 1 7 (fireN base 1 7 10 (actualSend base 1 7 0 dInit)) =
      fireN base 1 7 10 (actualSend base 1 7 0 dInit) ∧
    (fireN base 1 7 10 (actualSend base 1 7 0 dInit)).sent = List.range 10 := by
  rw [exhaust_eq]
  refine ⟨rfl, rfl, ?_, rfl⟩
  simp [timerFire, aget]

/-- C6: `_storePacket` keys the offline packet by
`client ++ ":" ++ ISO-timestamp` as claimed, but passes
`options.ttl.subscriptions` as the ttl, not `options.ttl.packets`: with
`subscriptions = 1000` and `packets = 9999` the stored ttl is `1000`. -/
theorem c6_storePacket_uses_subscriptions_ttl :
    (mkTTLOpts (some 1000) (some 9999) none).packets = 9999 ∧
    storePacket (mkTTLOpts (some 1000) (some 9999) none) [] "c" c6Packet
      "2026-01-01T00:00:00.000Z" =
      [("c:2026-01-01T00:00:00.000Z", (c6Packet, 1000))] ∧
    (1000 : Nat) ≠ 9999 := by decide

/-- C7, counterexample: starting from the largest initial `nextId` sample
(65534), the third delivery through `forward` is given `messageId = 65536`,
which exceeds 65535: the counter is never wrapped. -/
theorem c7_counterexample :
    (forward (forwardN "t" "x" none "t" 0 2 c7Session) "t" "x" none "t"
      0).2.messageId = some 65536 ∧
    65535 < 65536 := by decide

/-- C7 (amended): `forward` allocates `messageId = session.nextId++` with
`nextId` initialised to `Math.floor(65535 * Math.random())`, a value below
65535; the counter increases by one per delivery with no wrap at 65535, so
after `n` deliveries it is the initial value plus `n`. -/
theorem c7_nextId_increments (s : FSession) (topic payload : String)
    (pq : Option Nat) (subTopic : String) (iq : Nat) :
    (forward s topic payload pq subTopic iq).2.messageId = some s.nextId ∧
    (forward s topic payload pq subTopic iq).1.nextId = s.nextId + 1 ∧
    (∀ n, (forwardN topic payload pq subTopic iq n s).nextId = s.nextId + n) ∧
    (∀ sample, initNextId sample < 65535) := by
  refine ⟨rfl, rfl, ?_, ?_⟩
  · intro n
    induction n with
    | zero => rfl
    | succ n ih =>
      show (forward (forwardN topic payload pq subTopic iq n s) topic payload
        pq subTopic iq).1.nextId = s.nextId + (n + 1)
      rw [show (forward (forwardN topic payload pq subTopic iq n s) topic
        payload pq subTopic iq).1.nextId =
        (forwardN topic payload pq subTopic iq n s).nextId + 1 from rfl, ih]
      omega
  · intro sample
    exact Nat.mod_lt _ (by omega)

/-- C8, counterexample: the get error of the first matched subscriber is
handed to the completion callback of `storeOfflinePacket` (it is not logged
and skipped), even though the copy for the other subscriber is stored. -/
theorem c8_counterexample :
    (storeOfflinePacket (mkTTLOpts none none none) c8State c8Packet
      ["T1", "T2"]).2 = some "a/+:a" ∧
    aget (storeOfflinePacket (mkTTLOpts none none none) c8State c8Packet
      ["T1", "T2"]).1 "b:T2" = some (c8Packet, 3600000) := by decide

/-- C8 (amended): when the subscription row of one matched subscriber cannot
be read, `async.each` hands the error to the completion callback of
`storeOfflinePacket` (the publish-path callback receives the error rather
than none); the iterations of the other matched subscribers still run and
their offline copies are stored. -/
theorem c8_storeOffline_error_propagates (opts : TTLOpts) (st : PState)
    (p : Packet) (times : List String) (k t : String)
    (hm : (k, t) ∈ (lobberMatch st.subLobber p.topic).zip times)
    (hrow : aget st.subscriptions k = none) :
    (storeOfflinePacket opts st p times).2.isSome = true ∧
    (∀ k2 t2 sub, (k2, t2) ∈ (lobberMatch st.subLobber p.topic).zip times →
      aget st.subscriptions k2 = some sub →
      aget (storeOfflinePacket opts st p times).1 (sub.client ++ ":" ++ t2) =
        some (p, opts.subscriptions)) := by
  constructor
  · exact sop_foldl_err opts st.subscriptions p _ _ k t hm hrow
  · intro k2 t2 sub hm2 hrow2
    exact sop_foldl_stored opts st.subscriptions p _ _ k2 t2 sub hm2 hrow2

/-- C8 witness: the amended theorem applied at the concrete state. -/
theorem c8_witness :
    (storeOfflinePacket (mkTTLOpts none none none) c8State c8Packet
      ["T1", "T2"]).2.isSome = true :=
  (c8_storeOffline_error_propagates (mkTTLOpts none none none) c8State
    c8Packet ["T1", "T2"] "a/+:a" "T1" (by decide) (by decide)).1

/-- C9: a SUBSCRIBE for a filter the client already holds only updates the
stored qos in place and grants the downgraded qos, leaving the bus
registrations untouched; starting from a state without the filter, repeating
the identical single-filter SUBSCRIBE any number of times adds exactly one
bus registration for it, and from a fresh session the count is exactly one. -/
theorem c9_subscribe_idempotent :
    (∀ st t q, (aget st.subscriptions t).isSome = true →
      handleSubscribe st [(t, q)] =
        ({ st with subscriptions := aput st.subscriptions t (downgrade q) },
         [downgrade q])) ∧
    (∀ st t q n, aget st.subscriptions t = none →
      aget (repSub t q (n + 1) st).subscriptions t = some (downgrade q) ∧
      busCount (repSub t q (n + 1) st) t = busCount st t + 1) ∧
    (∀ t q n, busCount (repSub t q (n + 1) c9Fresh) t = 1) := by
  have h1 : ∀ st t q, (aget st.subscriptions t).isSome = true →
      handleSubscribe st [(t, q)] =
        ({ st with subscriptions := aput st.subscriptions t (downgrade q) },
         [downgrade q]) := by
    intro st t q h
    simp [handleSubscribe, grantedPass, regPass, h, aget_aput_self]
  have h2 : ∀ st t q n, aget st.subscriptions t = none →
      aget (repSub t q (n + 1) st).subscriptions t = some (downgrade q) ∧
      busCount (repSub t q (n + 1) st) t = busCount st t + 1 := by
    intro st t q n h
    induction n with
    | zero =>
      have he : handleSubscribe st [(t, q)] =
          ({ subscriptions := aput st.subscriptions t (downgrade q)
             busRegs := st.busRegs ++ [(replaceFirstHash t, st.nextHandler)]
             nextHandler := st.nextHandler + 1 }, [downgrade q]) := by
        simp [handleSubscribe, grantedPass, regPass, h]
      constructor
      · show aget (handleSubscribe st [(t, q)]).1.subscriptions t =
          some (downgrade q)
        rw [he]
        exact aget_aput_self _ _ _
      · show busCount (handleSubscribe st [(t, q)]).1 t = busCount st t + 1
        rw [he]
        simp [busCount, List.filter_append]
    | succ n ih =>
      obtain ⟨iha, ihb⟩ := ih
      have hsome : (aget (repSub t q (n + 1) st).subscriptions t).isSome =
          true := by rw [iha]; rfl
      have happ := h1 (repSub t q (n + 1) st) t q hsome
      constructor
      · show aget
          (handleSubscribe (repSub t q (n + 1) st) [(t, q)]).1.subscriptions
          t = some (downgrade q)
        rw [happ]
        exact aget_aput_self _ _ _
      · show busCount (handleSubscribe (repSub t q (n + 1) st) [(t, q)]).1 t =
          busCount st t + 1
        rw [happ]
        exact ihb
  refine ⟨h1, h2, ?_⟩
  intro t q n
  exact (h2 c9Fresh t q n rfl).2

/-- C9 witness: the theorem applied at concrete states (a duplicate
SUBSCRIBE on a held filter, and three repetitions from a fresh state). -/
theorem c9_witness :
    handleSubscribe c9Held [("a/#", 2)] =
      ({ c9Held with
         subscriptions := aput c9Held.subscriptions "a/#" (downgrade 2) },
       [downgrade 2]) ∧
    busCount (repSub "a/#" 2 3 c9Fresh) "a/#" = busCount c9Fresh "a/#" + 1 ∧
    busCount (repSub "a/#" 2 3 c9Fresh) "a/#" = 1 :=
  ⟨c9_subscribe_idempotent.1 c9Held "a/#" 2 (by decide),
   (c9_subscribe_idempotent.2.1 c9Fresh "a/#" 2 2 (by decide)).2,
   c9_subscribe_idempotent.2.2 "a/#" 2 2⟩

/-- C10, counterexample: with two index rows for client "c" both matching the
packet topic but the two `_storePacket` calls observing the same ISO
timestamp (two stores within one millisecond, the common case for one
publish), the keys collide: the second put overwrites the first, only one
offline copy is stored, and draining the queue on a non-clean reconnect
yields the packet exactly once, not twice. -/
theorem c10_counterexample :
    (storeOfflinePacket (mkTTLOpts none none none) c10State c10Packet
      ["T", "T"]).1 = [("c:T", (c10Packet, 3600000))] ∧
    countOcc c10Packet
      (streamOfflinePackets false "c"
        (storeOfflinePacket (mkTTLOpts none none none) c10State c10Packet
          ["T", "T"]).1).2 = 1 := by decide

/-- C10 (amended): one `_storePacket` put is issued per matching
subscription-index row, not per client, each keyed by
`client ++ ":" ++ ISO-timestamp`.  With two rows for the same client `c` both
matching the packet topic: when the two puts observe distinct timestamps, two
distinct offline entries holding the packet are stored and a non-clean
reconnect yields the packet at least twice; when they observe the same
timestamp the keys collide and the second put overwrites the first, so the
store ends up as a single put of the packet. -/
theorem c10_offline_copy_per_row (opts : TTLOpts) (st : PState) (p : Packet)
    (c k1 k2 t1 t2 : String) (r1 r2 : SubRow)
    (hmatch : lobberMatch st.subLobber p.topic = [k1, k2])
    (hr1 : aget st.subscriptions k1 = some r1)
    (hr2 : aget st.subscriptions k2 = some r2)
    (hc1 : r1.client = c) (hc2 : r2.client = c) :
    (t1 ≠ t2 →
      aget (storeOfflinePacket opts st p [t1, t2]).1 (c ++ ":" ++ t1) =
        some (p, opts.subscriptions) ∧
      aget (storeOfflinePacket opts st p [t1, t2]).1 (c ++ ":" ++ t2) =
        some (p, opts.subscriptions) ∧
      c ++ ":" ++ t1 ≠ c ++ ":" ++ t2 ∧
      2 ≤ countOcc p
        (streamOfflinePackets false c
          (storeOfflinePacket opts st p [t1, t2]).1).2) ∧
    storeOfflinePacket opts st p [t1, t1] =
      (aput st.offlinePackets (c ++ ":" ++ t1) (p, opts.subscriptions),
       none) := by
  constructor
  · intro ht
    have hz : (lobberMatch st.subLobber p.topic).zip [t1, t2] =
        [(k1, t1), (k2, t2)] := by
      rw [hmatch]
      rfl
    have hsop : storeOfflinePacket opts st p [t1, t2] =
        [(k1, t1), (k2, t2)].foldl (sopStep opts st.subscriptions p)
          (st.offlinePackets, none) := by
      rw [storeOfflinePacket, hz]
    have s1 : aget (storeOfflinePacket opts st p [t1, t2]).1 (c ++ ":" ++ t1) =
        some (p, opts.subscriptions) := by
      rw [hsop, ← hc1]
      exact sop_foldl_stored opts st.subscriptions p _ _ k1 t1 r1 (by simp) hr1
    have s2 : aget (storeOfflinePacket opts st p [t1, t2]).1 (c ++ ":" ++ t2) =
        some (p, opts.subscriptions) := by
      rw [hsop, ← hc2]
      exact sop_foldl_stored opts st.subscriptions p _ _ k2 t2 r2 (by simp) hr2
    have hkne : c ++ ":" ++ t1 ≠ c ++ ":" ++ t2 := strKey_ne c t1 t2 ht
    refine ⟨s1, s2, hkne, ?_⟩
    have m1 : (c ++ ":" ++ t1, (p, opts.subscriptions)) ∈
        (storeOfflinePacket opts st p [t1, t2]).1 := aget_mem _ _ _ s1
    have m2 : (c ++ ":" ++ t2, (p, opts.subscriptions)) ∈
        (storeOfflinePacket opts st p [t1, t2]).1 := aget_mem _ _ _ s2
    have f1 : (c ++ ":" ++ t1, (p, opts.subscriptions)) ∈
        (storeOfflinePacket opts st p [t1, t2]).1.filter
          (fun kv => strStartsWith kv.1 (c ++ ":")) :=
      List.mem_filter.mpr ⟨m1, strStartsWith_append (c ++ ":") t1⟩
    have f2 : (c ++ ":" ++ t2, (p, opts.subscriptions)) ∈
        (storeOfflinePacket opts st p [t1, t2]).1.filter
          (fun kv => strStartsWith kv.1 (c ++ ":")) :=
      List.mem_filter.mpr ⟨m2, strStartsWith_append (c ++ ":") t2⟩
    show 2 ≤ countOcc p
      (((storeOfflinePacket opts st p [t1, t2]).1.filter
        (fun kv => strStartsWith kv.1 (c ++ ":"))).map (fun kv => kv.2.1))
    exact two_le_countOcc_map _ (fun kv => kv.2.1) p _ _ f1 f2
      (fun hh => hkne (congrArg Prod.fst hh)) rfl rfl
  · have hz1 : (lobberMatch st.subLobber p.topic).zip [t1, t1] =
        [(k1, t1), (k2, t1)] := by
      rw [hmatch]
      rfl
    rw [storeOfflinePacket, hz1, List.foldl_cons,
      sopStep_some opts st.subscriptions p (st.offlinePackets, none)
        (k1, t1) r1 hr1,
      List.foldl_cons,
      sopStep_some opts st.subscriptions p _ (k2, t1) r2 hr2,
      List.foldl_nil, hc1, hc2]
    show (aput (aput st.offlinePackets (c ++ ":" ++ t1)
        (p, opts.subscriptions)) (c ++ ":" ++ t1) (p, opts.subscriptions),
      (none : Option String)) = _
    rw [aput_aput_same]

/-- C10 witness: the theorem applied at the concrete state with distinct
timestamps, discharging the distinctness hypothesis there. -/
theorem c10_witness :
    2 ≤ countOcc c10Packet
      (streamOfflinePackets false "c"
        (storeOfflinePacket (mkTTLOpts none none none) c10State c10Packet
          ["T1", "T2"]).1).2 :=
  (((c10_offline_copy_per_row (mkTTLOpts none none none) c10State c10Packet
    "c" "a/+:c" "a/#:c" "T1" "T2"
    { client := "c", topic := "a/+", qos := 1 }
    { client := "c", topic := "a/#", qos := 1 }
    (by decide) (by decide) (by decide) rfl rfl).1 (by decide)).2.2.2)
